import Mathlib

/-!
Verification development for the OnboardingAssistant backend
(content generation & caching pipeline).

The Python sources under `backend/` are shallowly embedded: pure helpers
become Lean functions, database-touching route handlers and services become
explicit state-passing functions over a `DbState` record, and the LLM
completion backend is abstracted as oracle function parameters (it is an
external collaborator of the specified core).  Strings are modelled as
`List Char`, matching Python's character-indexed `str`.
-/

/-! ## Python JSON values and a model of `json.loads`

`json.loads` is the Python standard library parser.  We model the subset
actually exercised by the repository's parse-recovery logic: objects,
arrays, strings (with the common escapes), integers, booleans and `null`.
Floats and `\u` escapes are omitted; no input used in any theorem below
contains them.  Arrays and objects are encoded as constructor chains
(`arrCons`/`objCons`) rather than nested `List`s so that decidable
equality can be derived.
-/

inductive PyJson where
  | null
  | pbool (b : Bool)
  | pint (n : Int)
  | pstr (s : List Char)
  | arrNil
  | arrCons (v rest : PyJson)
  | objNil
  | objCons (k : List Char) (v rest : PyJson)
deriving DecidableEq, Repr

/-- Python whitespace as stripped by `str.strip()` and skipped by `json.loads`. -/
def isPyWs (c : Char) : Bool :=
  c == ' ' || c == '\t' || c == '\n' || c == '\r' || c == '\x0b' || c == '\x0c'

def skipWs (cs : List Char) : List Char :=
  cs.dropWhile isPyWs

/-- JSON string escape characters accepted by `json.loads` (minus `\u`). -/
def escChar (c : Char) : Option Char :=
  if c = '"' then some '"'
  else if c = '\\' then some '\\'
  else if c = '/' then some '/'
  else if c = 'n' then some '\n'
  else if c = 't' then some '\t'
  else if c = 'r' then some '\r'
  else if c = 'b' then some (Char.ofNat 8)
  else if c = 'f' then some (Char.ofNat 12)
  else none

/-- Body of a JSON string after the opening quote: returns the decoded
characters and the remainder after the closing quote.  Raw control
characters are rejected, as in strict `json.loads`. -/
def parseStringBody : List Char → Option (List Char × List Char)
  | [] => none
  | c :: rest =>
    if c = '"' then some ([], rest)
    else if c = '\\' then
      match rest with
      | [] => none
      | e :: rest2 =>
        match escChar e, parseStringBody rest2 with
        | some ec, some (s, r) => some (ec :: s, r)
        | _, _ => none
    else if c.toNat < 32 then none
    else
      match parseStringBody rest with
      | some (s, r) => some (c :: s, r)
      | none => none

def digitsToNat (ds : List Char) : Nat :=
  ds.foldl (fun acc c => acc * 10 + (c.toNat - '0'.toNat)) 0

/-- Parse a JSON integer (optional minus sign, digits).  A following
`.`/`e`/`E` would make it a float, outside the modelled subset, so the
parse is rejected there. -/
def parseNum (cs : List Char) : Option (Int × List Char) :=
  let (negSign, cs1) :=
    match cs with
    | '-' :: rest => (true, rest)
    | _ => (false, cs)
  let (ds, rest) := cs1.span Char.isDigit
  if ds = [] then none
  else
    match rest with
    | c :: _ =>
      if c = '.' || c = 'e' || c = 'E' then none
      else some (if negSign then -(digitsToNat ds : Int) else (digitsToNat ds : Int), rest)
    | [] => some (if negSign then -(digitsToNat ds : Int) else (digitsToNat ds : Int), [])

mutual

/-- Fuel-driven recursive-descent JSON value parser (model of `json.loads`
on the subset described above). -/
def parseVal : Nat → List Char → Option (PyJson × List Char)
  | 0, _ => none
  | Nat.succ fuel, cs =>
    let cs := skipWs cs
    match cs with
    | [] => none
    | c :: rest =>
      if c = '{' then parseObjFields fuel rest true
      else if c = '[' then parseArrElems fuel rest true
      else if c = '"' then
        match parseStringBody rest with
        | some (s, r) => some (PyJson.pstr s, r)
        | none => none
      else if ("null".toList).isPrefixOf cs then some (PyJson.null, cs.drop 4)
      else if ("true".toList).isPrefixOf cs then some (PyJson.pbool true, cs.drop 4)
      else if ("false".toList).isPrefixOf cs then some (PyJson.pbool false, cs.drop 5)
      else
        match parseNum cs with
        | some (n, r) => some (PyJson.pint n, r)
        | none => none

/-- Array elements after `[` (or after a `,`): builds an `arrCons` chain. -/
def parseArrElems : Nat → List Char → Bool → Option (PyJson × List Char)
  | 0, _, _ => none
  | Nat.succ fuel, cs, first =>
    let cs := skipWs cs
    match cs with
    | ']' :: r => if first then some (PyJson.arrNil, r) else none
    | _ =>
      match parseVal fuel cs with
      | some (v, r) =>
        match skipWs r with
        | ']' :: r2 => some (PyJson.arrCons v PyJson.arrNil, r2)
        | ',' :: r2 =>
          match parseArrElems fuel r2 false with
          | some (chain, r3) => some (PyJson.arrCons v chain, r3)
          | none => none
        | _ => none
      | none => none

/-- Object fields after `{` (or after a `,`): builds an `objCons` chain. -/
def parseObjFields : Nat → List Char → Bool → Option (PyJson × List Char)
  | 0, _, _ => none
  | Nat.succ fuel, cs, first =>
    let cs := skipWs cs
    match cs with
    | '}' :: r => if first then some (PyJson.objNil, r) else none
    | '"' :: r =>
      match parseStringBody r with
      | some (k, r1) =>
        match skipWs r1 with
        | ':' :: r2 =>
          match parseVal fuel r2 with
          | some (v, r3) =>
            match skipWs r3 with
            | '}' :: r4 => some (PyJson.objCons k v PyJson.objNil, r4)
            | ',' :: r4 =>
              match parseObjFields fuel r4 false with
              | some (chain, r5) => some (PyJson.objCons k v chain, r5)
              | none => none
            | _ => none
          | none => none
        | _ => none
      | none => none
    | _ => none

end

/-- Model of Python `json.loads`: parse one value, allow surrounding
whitespace, reject trailing data. -/
def pyJsonLoads (cs : List Char) : Option PyJson :=
  match parseVal (cs.length + 2) cs with
  | some (v, r) => if skipWs r = [] then some v else none
  | none => none

/-! ## Python string helpers used by `GrokService._parse_json_response` -/

/-- Split a character list at the first occurrence of a (non-empty)
separator: returns the part before it and the part after it, or `none`
when the separator does not occur.  `splitFirst sep hay = some _` is
exactly Python's `sep in hay`, and its components describe
`hay.split(sep)[0]` / the text following the first separator. -/
def splitFirst (sep : List Char) : List Char → Option (List Char × List Char)
  | [] => if sep = [] then some ([], []) else none
  | c :: rest =>
    if sep.isPrefixOf (c :: rest) then some ([], (c :: rest).drop sep.length)
    else
      match splitFirst sep rest with
      | some (pre, post) => some (c :: pre, post)
      | none => none

/-- The part of `hay` before the first occurrence of `sep` (all of `hay`
when `sep` does not occur): Python's `hay.split(sep)[0]`. -/
def beforeFirstOrAll (sep hay : List Char) : List Char :=
  match splitFirst sep hay with
  | some (pre, _) => pre
  | none => hay

/-- Python `str.strip()`. -/
def pyStrip (cs : List Char) : List Char :=
  ((cs.dropWhile isPyWs).reverse.dropWhile isPyWs).reverse

def nonBrace (c : Char) : Bool :=
  !(c == '{') && !(c == '}')

/-- Iteration part of the regex `\x7b[^\x7b\x7d]*(?:\x7b[^\x7b\x7d]*\x7d[^\x7b\x7d]*)*\x7d`
used as the brace-scan fallback in `_parse_json_response`.  The pattern is
deterministic: character classes exclude braces, so greedy matching never
backtracks usefully.  `acc` holds the characters matched so far (in order),
`rest` is the remaining input positioned after a `[^\x7b\x7d]*` run. -/
def braceMatchLoop : Nat → List Char → List Char → Option (List Char)
  | 0, _, _ => none
  | Nat.succ fuel, acc, rest =>
    match rest with
    | '}' :: _ => some (acc ++ ['}'])
    | '{' :: r =>
      let (b, r2) := r.span nonBrace
      match r2 with
      | '}' :: r3 =>
        let (d, r4) := r3.span nonBrace
        braceMatchLoop fuel (acc ++ '{' :: (b ++ '}' :: d)) r4
      | _ => none
    | _ => none

/-- Attempt the fallback regex anchored at the start of `cs`. -/
def braceMatchAt (cs : List Char) : Option (List Char) :=
  match cs with
  | '{' :: rest =>
    let (a, r) := rest.span nonBrace
    braceMatchLoop (r.length + 1) ('{' :: a) r
  | _ => none

/-- `re.search` of the fallback brace regex: leftmost position at which the
anchored pattern matches. -/
def regexSearchBrace : List Char → Option (List Char)
  | [] => none
  | c :: rest =>
    match braceMatchAt (c :: rest) with
    | some m => some m
    | none => regexSearchBrace rest

/-- `json_str.replace("\n", " ").replace("\r", "")`, the last-resort cleanup
in `_parse_json_response`. -/
def fixNewlines (cs : List Char) : List Char :=
  (cs.map (fun c => if c = '\n' then ' ' else c)).filter (fun c => !(c == '\r'))

/-- Python exception outcomes of `_parse_json_response`: the explicitly
raised `ValueError` (which carries a message) versus a propagated
`json.JSONDecodeError` from a candidate substring that failed to parse. -/
inductive PyErr where
  | valueError (msg : List Char)
  | jsonDecodeError
deriving DecidableEq, Repr

/-- Second half of `_parse_json_response`: strip the candidate, try
`json.loads`, then retry once with newlines replaced. -/
def parseCandidate (jsonStr : List Char) : Except PyErr PyJson :=
  let js := pyStrip jsonStr
  match pyJsonLoads js with
  | some v => .ok v
  | none =>
    match pyJsonLoads (fixNewlines js) with
    | some v => .ok v
    | none => .error .jsonDecodeError

/-- Embedding of `GrokService._parse_json_response` (grok_service.py:42-74):
direct parse, then a ```json-labelled fence, then an unlabelled ``` fence,
then the brace-regex fallback; the explicit `ValueError` (with the first
200 characters of the raw response) is raised only when no fence and no
regex match exists. -/
def parseJsonResponse (response : List Char) : Except PyErr PyJson :=
  match pyJsonLoads response with
  | some v => .ok v
  | none =>
    match splitFirst ("```json".toList) response with
    | some (_, after) => parseCandidate (beforeFirstOrAll ("```".toList) after)
    | none =>
      match splitFirst ("```".toList) response with
      | some (_, after) => parseCandidate (beforeFirstOrAll ("```".toList) after)
      | none =>
        match regexSearchBrace response with
        | some m => parseCandidate m
        | none =>
          .error (.valueError (("Could not parse JSON from response: ".toList) ++ response.take 200))

/-- Modelled from the spec: the "first balanced brace-delimited object" of
a raw text, i.e. the substring from the first `\x7b` to its matching `\x7d`.
This is the comparison definition for what the spec claims the fallback
extracts; the code's regex fallback is compared against it. -/
def takeBalanced : List Char → Nat → Option (List Char)
  | [], _ => none
  | c :: rest, depth =>
    if c = '{' then
      match takeBalanced rest (depth + 1) with
      | some tl => some (c :: tl)
      | none => none
    else if c = '}' then
      if depth = 1 then some [c]
      else if depth = 0 then none
      else
        match takeBalanced rest (depth - 1) with
        | some tl => some (c :: tl)
        | none => none
    else
      match takeBalanced rest depth with
      | some tl => some (c :: tl)
      | none => none

/-- Modelled from the spec: first balanced brace-delimited object. -/
def firstBalancedObject : List Char → Option (List Char)
  | [] => none
  | c :: rest =>
    if c = '{' then takeBalanced (c :: rest) 0
    else firstBalancedObject rest

/-! ## Data model (database.py)

Each SQLAlchemy model becomes a row structure; the database becomes a
`DbState` record of row lists.  JSON payloads that the embedded logic
never inspects are kept as opaque `List Char` / `PyJson` fields.
Timestamps are ordinals (`Nat`).
-/

/-- `reading_completed` column of `Progress`: documented in database.py as
"Array of completed chapter numbers", but `update_progress` writes the
legacy integer flag format and the column is nullable. -/
inductive ReadingDone where
  | null
  | legacy (flag : Int)
  | chapters (l : List Int)
deriving DecidableEq, Repr

/-- `reading_material` JSON payload (weekly reading).  `reason` is the
optional justification field. -/
structure Reading where
  title : List Char
  content : List Char
  reason : Option (List Char)
deriving DecidableEq, Repr

/-- One entry of a `coding_tasks` JSON list. -/
structure CodingTask where
  title : List Char
  description : List Char
  reason : Option (List Char)
deriving DecidableEq, Repr

/-- A week entry of `LearningPlan.plan_data["weeks"]` (also the skeleton
weeks produced by `_generate_comprehensive_plan`): `week_number` plus the
remaining fields (title/objectives/topics/focus areas), opaque here. -/
structure PlanWeek where
  weekNumber : Int
  core : List Char
deriving DecidableEq, Repr

/-- A week entry of `MasterPlan.weeks_data`: the spread skeleton week plus
generated `reading_material` / `coding_tasks` / `quiz`.  An empty
`reading_material` dict (Python-falsy) is `none`; quiz entries are opaque. -/
structure MPWeek where
  weekNumber : Int
  core : List Char
  reading : Option Reading
  tasks : List CodingTask
  quiz : List (List Char)
deriving DecidableEq, Repr

/-- `resume_analysis` payload: the `experience_level` entry (absent key
modelled as `none`, the code applies default "junior"). -/
structure ResumeAnalysisData where
  experienceLevel : Option (List Char)
deriving DecidableEq, Repr

structure CandidateRow where
  id : Int
  resumeText : List Char
  resumeAnalysis : Option ResumeAnalysisData
deriving DecidableEq, Repr

structure AnalysisRow where
  codebaseId : List Char
  analysisData : PyJson
  analyzedAt : Nat
deriving DecidableEq, Repr

structure MasterPlanRow where
  id : List Char
  codebaseId : List Char
  version : Int
  planOverview : List Char
  weeksData : List MPWeek
  generatedAt : Nat
deriving DecidableEq, Repr

structure LearningPlanRow where
  id : Int
  candidateId : Int
  codebaseId : List Char
  planOverview : List Char
  planWeeks : List PlanWeek
  createdAt : Nat
deriving DecidableEq, Repr

structure WeeklyContentRow where
  learningPlanId : Int
  weekNumber : Int
  reading : Option Reading
  tasks : List CodingTask
  quiz : List (List Char)
deriving DecidableEq, Repr

/-- `tasks_completed` has column default `[]` and every write path appends
to a list, so it is kept as a plain list (`progress.tasks_completed or []`
in the code only guards the null that these operations never store). -/
structure ProgressRow where
  candidateId : Int
  weekNumber : Int
  readingCompleted : ReadingDone
  tasksCompleted : List (List Char)
  quizScore : Option Int
  quizAnswers : Option (List (Option Int))
deriving DecidableEq, Repr

structure DbState where
  candidates : List CandidateRow
  analyses : List AnalysisRow
  masterPlans : List MasterPlanRow
  learningPlans : List LearningPlanRow
  weeklyContents : List WeeklyContentRow
  progresses : List ProgressRow
deriving DecidableEq, Repr

def DbState.empty : DbState := ⟨[], [], [], [], [], []⟩

deriving instance DecidableEq for Except

/-! ## Row selection helpers (the `select ... order_by desc ... limit 1`
patterns).  `ORDER BY ... DESC LIMIT 1` returns a row with the maximal
key; on ties SQL leaves the choice unspecified, modelled as the first
maximal row in insertion order. -/

def latestAnalysisFor (cb : List Char) (rows : List AnalysisRow) : Option AnalysisRow :=
  (rows.filter (fun r => r.codebaseId == cb)).foldl
    (fun acc r =>
      match acc with
      | none => some r
      | some b => if r.analyzedAt > b.analyzedAt then some r else some b)
    none

def latestMasterPlan (cb : List Char) (rows : List MasterPlanRow) : Option MasterPlanRow :=
  (rows.filter (fun r => r.codebaseId == cb)).foldl
    (fun acc r =>
      match acc with
      | none => some r
      | some b => if r.version > b.version then some r else some b)
    none

def latestLearningPlan (candidateId : Int) (rows : List LearningPlanRow) : Option LearningPlanRow :=
  (rows.filter (fun r => r.candidateId == candidateId)).foldl
    (fun acc r =>
      match acc with
      | none => some r
      | some b => if r.createdAt > b.createdAt then some r else some b)
    none

def findCandidate (candidateId : Int) (rows : List CandidateRow) : Option CandidateRow :=
  rows.find? (fun r => r.id == candidateId)

def findWeeklyContent (planId weekNumber : Int) (rows : List WeeklyContentRow) : Option WeeklyContentRow :=
  rows.find? (fun r => r.learningPlanId == planId && r.weekNumber == weekNumber)

def findProgress (candidateId weekNumber : Int) (rows : List ProgressRow) : Option ProgressRow :=
  rows.find? (fun r => r.candidateId == candidateId && r.weekNumber == weekNumber)

/-- Commit of an in-place mutation or insert: replace the first row with
the given key, or append a fresh one. -/
def upsertWeeklyContent (planId weekNumber : Int) (row : WeeklyContentRow) :
    List WeeklyContentRow → List WeeklyContentRow
  | [] => [row]
  | r :: rs =>
    if r.learningPlanId == planId && r.weekNumber == weekNumber then row :: rs
    else r :: upsertWeeklyContent planId weekNumber row rs

def upsertProgress (candidateId weekNumber : Int) (row : ProgressRow) :
    List ProgressRow → List ProgressRow
  | [] => [row]
  | r :: rs =>
    if r.candidateId == candidateId && r.weekNumber == weekNumber then row :: rs
    else r :: upsertProgress candidateId weekNumber row rs

/-! ## Generation backend oracles

The LLM completion endpoint is an external collaborator; each structured
generation entry point of `GrokService` used by the embedded services is
an oracle function, fallible with an error message (`UpstreamError` or a
propagated parse failure).  The last argument of the reading/tasks
oracles is the optional expectation context. -/

structure PlanSkeleton where
  overview : List Char
  weeks : List PlanWeek
deriving DecidableEq, Repr

structure GrokOracles where
  genPlanSkeleton : PyJson → Except (List Char) PlanSkeleton
  genReading : PlanWeek → PyJson → Option (List Char) → Except (List Char) Reading
  genTasks : PlanWeek → PyJson → Option (List Char) → Except (List Char) (List CodingTask)
  genQuiz : PlanWeek → List Char → Except (List Char) (List (List Char))
  genReason : List Char → List Char → List Char → List Char → Except (List Char) (List Char)

/-! ## PlanTemplateService (plan_template_service.py) -/

/-- Failure outcomes of `PlanTemplateService.generate_master_plan`:
the explicit `ValueError` raised when no codebase analysis exists
(the spec's `PrecursorMissing`), a propagated generation/parse failure,
and the `IntegrityError` raised at commit when a row with the same
primary key `"{codebase_id}_v1"` already exists. -/
inductive GenError where
  | precursorMissing (msg : List Char)
  | upstream (msg : List Char)
  | integrityError
deriving DecidableEq, Repr

def GenError.message : GenError → List Char
  | .precursorMissing m => m
  | .upstream m => m
  | .integrityError => "UNIQUE constraint failed: master_plans.id".toList

/-- Generate reading, tasks and quiz for one week
(plan_template_service.py:54-65): sequential generation; any failure
propagates. -/
def genWeekContent (g : GrokOracles) (analysis : PyJson) (w : PlanWeek) :
    Except (List Char) MPWeek :=
  match g.genReading w analysis none with
  | .error e => .error e
  | .ok reading =>
    match g.genTasks w analysis none with
    | .error e => .error e
    | .ok tasks =>
      match g.genQuiz w reading.content with
      | .error e => .error e
      | .ok quiz => .ok ⟨w.weekNumber, w.core, some reading, tasks, quiz⟩

/-- The `for week in plan_data.get("weeks", [])` loop: strictly sequential,
first failure aborts. -/
def genWeeks (g : GrokOracles) (analysis : PyJson) :
    List PlanWeek → Except (List Char) (List MPWeek)
  | [] => .ok []
  | w :: ws =>
    match genWeekContent g analysis w with
    | .error e => .error e
    | .ok mw =>
      match genWeeks g analysis ws with
      | .error e => .error e
      | .ok rest => .ok (mw :: rest)

/-- The dict returned by `generate_master_plan` on success. -/
structure MasterPlanDict where
  id : List Char
  overview : List Char
  weeks : List MPWeek
deriving DecidableEq, Repr

/-- Embedding of `PlanTemplateService.generate_master_plan`
(plan_template_service.py:21-86).  Looks up the latest codebase analysis
(raising when absent), generates the 4-week skeleton and then all weekly
content sequentially, and only then builds and commits a `MasterPlan` row
with hard-coded id `"{codebase_id}_v1"` and `version=1`.  The commit of a
duplicate primary key raises `IntegrityError` and the session rolls back.
On every failure the state is returned unchanged (nothing was added
before the single commit). -/
def generateMasterPlan (g : GrokOracles) (codebaseId : List Char) (s : DbState) (now : Nat) :
    Except GenError MasterPlanDict × DbState :=
  match latestAnalysisFor codebaseId s.analyses with
  | none => (.error (.precursorMissing ("No codebase analysis found for ".toList ++ codebaseId)), s)
  | some analysisRecord =>
    match g.genPlanSkeleton analysisRecord.analysisData with
    | .error e => (.error (.upstream e), s)
    | .ok plan =>
      match genWeeks g analysisRecord.analysisData plan.weeks with
      | .error e => (.error (.upstream e), s)
      | .ok weeksWithContent =>
        let masterPlanId := codebaseId ++ "_v1".toList
        if s.masterPlans.any (fun r => r.id == masterPlanId) then
          (.error .integrityError, s)
        else
          let row : MasterPlanRow :=
            ⟨masterPlanId, codebaseId, 1, plan.overview, weeksWithContent, now⟩
          (.ok ⟨masterPlanId, plan.overview, weeksWithContent⟩,
           { s with masterPlans := s.masterPlans ++ [row] })

/-- Embedding of `PlanTemplateService.get_master_plan`
(plan_template_service.py:146-170): latest row for the codebase by
descending version, or `none`. -/
def getMasterPlan (codebaseId : List Char) (s : DbState) : Option MasterPlanRow :=
  latestMasterPlan codebaseId s.masterPlans

/-! ## Routes: master plan endpoint (routes.py:825-841) -/

structure HttpError where
  status : Int
  detail : List Char
deriving DecidableEq, Repr

structure MasterPlanEndpointOk where
  planId : List Char
  weeksCount : Nat
deriving DecidableEq, Repr

/-- Embedding of `generate_master_plan_endpoint` (routes.py:825-841):
every exception from the service — including the missing-analysis
`ValueError` — is re-raised as an `HTTPException` with status 500. -/
def generateMasterPlanEndpoint (g : GrokOracles) (codebaseId : List Char) (s : DbState) (now : Nat) :
    Except HttpError MasterPlanEndpointOk × DbState :=
  match generateMasterPlan g codebaseId s now with
  | (.ok mp, s') => (.ok ⟨mp.id, mp.weeks.length⟩, s')
  | (.error e, s') =>
    (.error ⟨500, "Master plan generation failed: ".toList ++ e.message⟩, s')

/-- Modelled from the spec: "surfaced as a user-facing 4xx-equivalent" —
an HTTP status in the 4xx class. -/
def statusIs4xx (status : Int) : Prop := 400 ≤ status ∧ status < 500

/-! ## Routes: weekly content (routes.py:444-674) -/

/-- A generic substring test, Python's `needle in hay`. -/
def containsSub (needle : List Char) : List Char → Bool
  | [] => needle.isEmpty
  | c :: rest => needle.isPrefixOf (c :: rest) || containsSub needle rest

/-- Experience-level based prompt-file choice (routes.py:479-483). -/
def chooseExpectationFile (level : List Char) : List Char :=
  let l := level.map Char.toLower
  if containsSub ("senior".toList) l || containsSub ("staff".toList) l
      || containsSub ("lead".toList) l then
    "senior_engineer_prompt.md".toList
  else
    "junior_engineer_prompt.md".toList

/-- The `expectation_context` computation (routes.py:476-492): a prompt
file is read from disk when the candidate has a resume analysis;
`promptFiles` models the on-disk `expectation_prompts` directory
(`none` = file missing, leaving the context `None`). -/
def expectationContextFor (promptFiles : List Char → Option (List Char))
    (candidateId : Int) (s : DbState) : Option (List Char) :=
  match findCandidate candidateId s.candidates with
  | none => none
  | some c =>
    match c.resumeAnalysis with
    | none => none
    | some ra => promptFiles (chooseExpectationFile (ra.experienceLevel.getD ("junior".toList)))

/-- The materialization trigger (routes.py:495): row absent, or falsy
`reading_material`, or falsy `coding_tasks`. -/
def needsMaterialization : Option WeeklyContentRow → Bool
  | none => true
  | some wc => wc.reading.isNone || wc.tasks.isEmpty

/-- Reading-reason enrichment (routes.py:526-533 and 613-625): when an
expectation context is available and the reading exists without a
`reason`, one is generated; a generation failure propagates. -/
def enrichReading (g : GrokOracles) (expCtx : Option (List Char)) :
    Option Reading → Except (List Char) (Option Reading)
  | none => .ok none
  | some rd =>
    match expCtx with
    | none => .ok (some rd)
    | some e =>
      if rd.reason.isNone then
        match g.genReason e ("reading material".toList) rd.title (rd.content.take 200) with
        | .ok rs => .ok (some { rd with reason := some rs })
        | .error err => .error err
      else .ok (some rd)

/-- Task-reason enrichment (routes.py:535-552 and 629-661): every task
without a `reason` gets one generated (the gather/join fan-out is
deterministic in effect); a failure propagates and nothing commits. -/
def enrichTasks (g : GrokOracles) (expCtx : Option (List Char)) :
    List CodingTask → Except (List Char) (List CodingTask)
  | [] => .ok []
  | t :: ts =>
    let hd : Except (List Char) CodingTask :=
      match expCtx with
      | none => .ok t
      | some e =>
        if t.reason.isNone then
          match g.genReason e ("coding task".toList) t.title (t.description.take 200) with
          | .ok rs => .ok { t with reason := some rs }
          | .error err => .error err
        else .ok t
    match hd with
    | .error err => .error err
    | .ok t' =>
      match enrichTasks g expCtx ts with
      | .error err => .error err
      | .ok ts' => .ok (t' :: ts')

/-- The reason-backfill stage on an existing row (routes.py:606-667):
re-checks missing reasons and commits the enriched row; all-or-nothing
(the single commit is at the end).  With no expectation context it is a
pure read. -/
def backfillStage (g : GrokOracles) (expCtx : Option (List Char)) (planId weekNumber : Int)
    (row : WeeklyContentRow) (s : DbState) : Except HttpError WeeklyContentRow × DbState :=
  match expCtx with
  | none => (.ok row, s)
  | some _ =>
    match enrichReading g expCtx row.reading with
    | .error e => (.error ⟨500, e⟩, s)
    | .ok reading' =>
      match enrichTasks g expCtx row.tasks with
      | .error e => (.error ⟨500, e⟩, s)
      | .ok tasks' =>
        let row' : WeeklyContentRow := ⟨planId, weekNumber, reading', tasks', row.quiz⟩
        (.ok row', { s with weeklyContents := upsertWeeklyContent planId weekNumber row' s.weeklyContents })

/-- Materialization (routes.py:494-604).  Returns the committed row, the
updated state, and whether the on-demand generation path
(`generate_weekly_reading` / `generate_coding_tasks` / `generate_quiz`)
was invoked — `true` exactly when one of those oracles is called.  The
master-plan copy path mutates the copied content (reason enrichment)
before the commit; a week missing from an available master plan is a 404
without falling back to generation. -/
def materializeStage (g : GrokOracles) (expCtx : Option (List Char)) (plan : LearningPlanRow)
    (weekNumber : Int) (s : DbState) : Except HttpError WeeklyContentRow × DbState × Bool :=
  match latestMasterPlan plan.codebaseId s.masterPlans with
  | some mp =>
    if mp.weeksData.isEmpty then
      materializeOnDemand g expCtx plan weekNumber s
    else
      match mp.weeksData.find? (fun w => w.weekNumber == weekNumber) with
      | none => (.error ⟨404, ("Week not found in master plan".toList)⟩, s, false)
      | some wk =>
        match enrichReading g expCtx wk.reading with
        | .error e => (.error ⟨500, e⟩, s, false)
        | .ok reading' =>
          match enrichTasks g expCtx wk.tasks with
          | .error e => (.error ⟨500, e⟩, s, false)
          | .ok tasks' =>
            let row : WeeklyContentRow := ⟨plan.id, weekNumber, reading', tasks', wk.quiz⟩
            (.ok row,
             { s with weeklyContents := upsertWeeklyContent plan.id weekNumber row s.weeklyContents },
             false)
  | none => materializeOnDemand g expCtx plan weekNumber s
where
  /-- The degraded path (routes.py:556-599): generate reading, tasks and
  quiz directly from the learning plan's own week data. -/
  materializeOnDemand (g : GrokOracles) (expCtx : Option (List Char)) (plan : LearningPlanRow)
      (weekNumber : Int) (s : DbState) : Except HttpError WeeklyContentRow × DbState × Bool :=
    match plan.planWeeks.find? (fun w => w.weekNumber == weekNumber) with
    | none => (.error ⟨404, ("Week not found in learning plan".toList)⟩, s, false)
    | some weekData =>
      let analysisData :=
        match latestAnalysisFor plan.codebaseId s.analyses with
        | some a => a.analysisData
        | none => PyJson.objNil
      match g.genReading weekData analysisData expCtx with
      | .error e => (.error ⟨500, e⟩, s, true)
      | .ok reading =>
        match g.genTasks weekData analysisData expCtx with
        | .error e => (.error ⟨500, e⟩, s, true)
        | .ok tasks =>
          match g.genQuiz weekData reading.content with
          | .error e => (.error ⟨500, e⟩, s, true)
          | .ok quiz =>
            let row : WeeklyContentRow := ⟨plan.id, weekNumber, some reading, tasks, quiz⟩
            (.ok row,
             { s with weeklyContents := upsertWeeklyContent plan.id weekNumber row s.weeklyContents },
             true)

/-- Embedding of `get_weekly_content` (routes.py:444-674).  The returned
row carries the `WeeklyContentResponse` fields (week_number /
reading_material / coding_tasks / quiz); the final `Bool` records whether
the on-demand generation path was invoked. -/
def getWeeklyContent (g : GrokOracles) (promptFiles : List Char → Option (List Char))
    (candidateId weekNumber : Int) (s : DbState) :
    Except HttpError WeeklyContentRow × DbState × Bool :=
  match latestLearningPlan candidateId s.learningPlans with
  | none => (.error ⟨404, ("Learning plan not found".toList)⟩, s, false)
  | some plan =>
    let expCtx := expectationContextFor promptFiles candidateId s
    let wc0 := findWeeklyContent plan.id weekNumber s.weeklyContents
    if needsMaterialization wc0 then
      match materializeStage g expCtx plan weekNumber s with
      | (.error e, s1, onDemand) => (.error e, s1, onDemand)
      | (.ok row, s1, onDemand) =>
        match backfillStage g expCtx plan.id weekNumber row s1 with
        | (.error e, s2) => (.error e, s2, onDemand)
        | (.ok row', s2) => (.ok row', s2, onDemand)
    else
      match wc0 with
      -- unreachable: `needsMaterialization none = true`, so this branch
      -- only runs with `wc0 = some _`
      | none => (.error ⟨404, ("Weekly content not found".toList)⟩, s, false)
      | some wc =>
        match backfillStage g expCtx plan.id weekNumber wc s with
        | (.error e, s2) => (.error e, s2, false)
        | (.ok row', s2) => (.ok row', s2, false)

/-! ## Routes: progress (routes.py:677-797) -/

/-- `ProgressUpdate` request schema (schema.py:98-103). -/
structure ProgressUpdatePayload where
  weekNumber : Int
  readingCompleted : Option Bool
  taskId : Option (List Char)
  quizAnswers : Option (List (Option Int))
deriving DecidableEq, Repr

/-- A freshly constructed `Progress` row before any field update: the JSON
columns take their column defaults (`[]`) at insert. -/
def freshProgress (candidateId weekNumber : Int) : ProgressRow :=
  ⟨candidateId, weekNumber, .chapters [], [], none, none⟩

/-- Embedding of `update_progress` (routes.py:677-716), modelling what the
commit actually persists.  The `reading_completed` branch
(routes.py:701-702) overwrites the column with the integer flag `1`/`0`
derived from the boolean payload — an attribute assignment, which
SQLAlchemy tracks.  The task branch (routes.py:704-708) builds
`tasks = progress_record.tasks_completed or []`: on a pending insert the
assigned list is serialized with the INSERT, and an empty stored list is
replaced by a fresh list (a genuine set event), but a non-empty stored
list is appended in place and reassigned as the same object — the plain
JSON column records no change and the commit drops the append.  The quiz
branch assigns both columns directly and persists. -/
def updateProgress (candidateId : Int) (p : ProgressUpdatePayload) (s : DbState) : DbState :=
  match findProgress candidateId p.weekNumber s.progresses with
  | none =>
    let row0 := freshProgress candidateId p.weekNumber
    let row1 :=
      match p.readingCompleted with
      | some b => { row0 with readingCompleted := .legacy (if b then 1 else 0) }
      | none => row0
    let row2 :=
      match p.taskId with
      | some t => { row1 with tasksCompleted := [t] }
      | none => row1
    let row3 :=
      match p.quizAnswers with
      | some ans =>
        { row2 with
          quizAnswers := some ans
          quizScore := some ((ans.filter (fun a => !a.isNone)).length : Int) }
      | none => row2
    { s with progresses := upsertProgress candidateId p.weekNumber row3 s.progresses }
  | some r =>
    let row1 :=
      match p.readingCompleted with
      | some b => { r with readingCompleted := .legacy (if b then 1 else 0) }
      | none => r
    let row2 :=
      match p.taskId with
      | some t =>
        if row1.tasksCompleted = [] then { row1 with tasksCompleted := [t] }
        else row1
      | none => row1
    let row3 :=
      match p.quizAnswers with
      | some ans =>
        { row2 with
          quizAnswers := some ans
          quizScore := some ((ans.filter (fun a => !a.isNone)).length : Int) }
      | none => row2
    { s with progresses := upsertProgress candidateId p.weekNumber row3 s.progresses }

/-- Embedding of `mark_chapter_complete` (routes.py:719-764), modelling
what the commit actually persists.  When the row is absent a pending
`Progress` object is inserted, so the appended chapter is serialized with
the INSERT; when the stored value is the legacy integer or null, the
normalization assigns a fresh `[]` (a tracked set event, routes.py:745-752)
and the append to that list is serialized at flush.  But when the stored
value is already a list, no assignment occurs: the in-place
`reading_completed.append` (routes.py:756) is an untracked mutation of a
plain JSON column — the commit writes only `updated_at` and the append is
lost.  The returned list is the route's `completed_chapters` response,
which always reports the in-memory append. -/
def markChapterComplete (candidateId weekNumber chapterNumber : Int) (s : DbState) :
    DbState × List Int :=
  match findProgress candidateId weekNumber s.progresses with
  | none =>
    let l' := [chapterNumber]
    let row : ProgressRow := ⟨candidateId, weekNumber, .chapters l', [], none, none⟩
    ({ s with progresses := upsertProgress candidateId weekNumber row s.progresses }, l')
  | some r =>
    match r.readingCompleted with
    | .chapters l =>
      let l' := if chapterNumber ∈ l then l else l ++ [chapterNumber]
      (s, l')
    | _ =>
      let l' := [chapterNumber]
      let row := { r with readingCompleted := .chapters l' }
      ({ s with progresses := upsertProgress candidateId weekNumber row s.progresses }, l')

/-- The completed-chapter count as read back by the progress checkers
(debug_progress.py:68, verify_progress.py:67):
`len(progress.reading_completed) if isinstance(..., list) else 0`. -/
def completedChaptersOf : ReadingDone → Nat
  | .chapters l => l.length
  | _ => 0

/-- Occurrences of `chapterNumber` in the stored completion data (a
non-list format contains no chapters). -/
def chapterCount (rd : ReadingDone) (chapterNumber : Int) : Nat :=
  match rd with
  | .chapters l => l.count chapterNumber
  | _ => 0

/-! ## Week percentage (debug_progress.py:63-91, verify_progress.py:61-98) -/

/-- Python `hay.count(needle)`: non-overlapping occurrences, scanning left
to right (fuel-driven; the fuel bound `|hay| + 1` is never exhausted for a
non-empty needle). -/
def countOccurAux : Nat → List Char → List Char → Nat
  | 0, _, _ => 0
  | Nat.succ fuel, needle, hay =>
    match hay with
    | [] => 0
    | _ :: t =>
      if needle.isPrefixOf hay then 1 + countOccurAux fuel needle (hay.drop needle.length)
      else countOccurAux fuel needle t

def countOccur (needle hay : List Char) : Nat :=
  countOccurAux (hay.length + 1) needle hay

/-- The chapter-estimation heuristic
(`max(1, math.ceil(sections / 2)) if sections > 0 else 1`), with
`sections = reading_text.count("## ")`; `math.ceil(s / 2)` on naturals is
`(s + 1) / 2`. -/
def estimatedChapters (readingText : List Char) : Nat :=
  let sections := countOccur ("## ".toList) readingText
  if sections > 0 then max 1 ((sections + 1) / 2) else 1

/-- `content.reading_material.get("content", "")` (debug_progress.py:64). -/
def readingTextOf (content : WeeklyContentRow) : List Char :=
  match content.reading with
  | some r => r.content
  | none => []

/-- Embedding of the per-week percentage computed by `check_progress`
(debug_progress.py:63-91; verify_progress.py:61-98 is identical):
reading 30%, tasks 40%, quiz 30%, each sub-score `min(1, done/total)`
with the zero-total guards of the code. -/
def weekPercent (content : WeeklyContentRow) (p : ProgressRow) : ℚ :=
  let readingText := readingTextOf content
  let totalChapters := estimatedChapters readingText
  let readingScore : ℚ := min 1 ((completedChaptersOf p.readingCompleted : ℚ) / (totalChapters : ℚ))
  let totalTasks := content.tasks.length
  let tasksScore : ℚ :=
    if totalTasks > 0 then min 1 ((p.tasksCompleted.length : ℚ) / (totalTasks : ℚ)) else 0
  let totalQuiz := content.quiz.length
  let quizScore : ℚ :=
    if totalQuiz > 0 then min 1 (((p.quizScore.getD 0 : Int) : ℚ) / (totalQuiz : ℚ)) else 0
  readingScore * 30 + tasksScore * 40 + quizScore * 30

/-- Modelled from the spec: `total_chapters` is "the count of level-2
section markers in the rendered reading content divided by 2, rounded up,
with minimum 1" — stated with a genuine rational ceiling. -/
def specTotalChapters (readingText : List Char) : ℤ :=
  max 1 ⌈(countOccur ("## ".toList) readingText : ℚ) / 2⌉

/-! ## FileService path handling (file_service.py) -/

/-- A `pathlib` pure path: anchor flag plus parts.  `pathlib` keeps `..`
components as literal parts (it never resolves them lexically). -/
structure PyPath where
  absolute : Bool
  parts : List (List Char)
deriving DecidableEq, Repr

/-- `pathlib`'s `/` operator: an absolute right operand replaces the
left. -/
def pathJoin (p q : PyPath) : PyPath :=
  if q.absolute then q else ⟨p.absolute, p.parts ++ q.parts⟩

/-- `PurePath.relative_to(base)` succeeds or raises `ValueError`: a purely
lexical prefix test on parts (documented as such; `..` components are not
walked). -/
def relativeToOk (p base : PyPath) : Bool :=
  p.absolute == base.absolute && base.parts.isPrefixOf p.parts

/-- `storage/codebases/<codebase_id>` (file_service.py:8-13). -/
def repoPathFor (codebaseId : List Char) : PyPath :=
  ⟨false, [("storage".toList), ("codebases".toList), codebaseId]⟩

/-- The shared guard of `FileService.list_files` (file_service.py:33-40)
and `FileService.get_file_content` (file_service.py:69-75): join the
caller-supplied path onto the repo root and run the `relative_to`
"security check", raising `ValueError("Invalid path")` on failure;
on success the target path is accessed on disk. -/
def fileServicePathCheck (codebaseId : List Char) (subdir : PyPath) :
    Except (List Char) PyPath :=
  let repoPath := repoPathFor codebaseId
  let target := pathJoin repoPath subdir
  if relativeToOk target repoPath then .ok target
  else .error ("Invalid path".toList)

/-- OS-level resolution of `..` components (no symlinks): lexical
normalization. -/
def resolveDots (parts : List (List Char)) : List (List Char) :=
  parts.foldl (fun acc p => if p = ("..".toList) then acc.dropLast else acc ++ [p]) []

/-- Modelled from the spec: the accessed target "lies under the repository
root" when, after resolving `..`, the root's parts are a prefix of the
target's parts (same anchor). -/
def insideRoot (target root : PyPath) : Prop :=
  target.absolute = root.absolute ∧ (resolveDots root.parts) <+: (resolveDots target.parts)

/-! ## Reason-stripping projections and concrete fixtures used by the
theorems below -/

/-- Forget the justification field of a reading payload: what remains is
exactly the content copied from the master plan. -/
def stripReadingReason : Option Reading → Option Reading
  | some r => some { r with reason := none }
  | none => none

/-- Forget the justification fields of a task list. -/
def stripTaskReasons (ts : List CodingTask) : List CodingTask :=
  ts.map (fun t => { t with reason := none })

/-- Oracles that always succeed with fixed small payloads. -/
def gOk : GrokOracles where
  genPlanSkeleton := fun _ => .ok ⟨"overview".toList, [⟨1, "w1".toList⟩]⟩
  genReading := fun _ _ _ => .ok ⟨"T".toList, "C".toList, none⟩
  genTasks := fun _ _ _ => .ok []
  genQuiz := fun _ _ => .ok []
  genReason := fun _ _ _ _ => .ok ("because".toList)

/-- Oracles whose coding-task generation fails. -/
def gTasksFail : GrokOracles :=
  { gOk with genTasks := fun _ _ _ => .error ("boom".toList) }

/-- A state holding exactly one codebase analysis for `"cb"`. -/
def sAnalysisOnly : DbState :=
  { DbState.empty with analyses := [⟨"cb".toList, PyJson.objNil, 0⟩] }

/-- A populated master-plan week (reading content given by the argument). -/
def mpWeek1 (content : List Char) : MPWeek :=
  ⟨1, "w1".toList, some ⟨"T".toList, content, none⟩,
   [⟨"t".toList, "d".toList, none⟩], [("q".toList)]⟩

/-- A master-plan row for codebase `"cb"` with the given version and
week-1 reading content. -/
def mpRowV (version : Int) (content : List Char) : MasterPlanRow :=
  ⟨"cb_v".toList, "cb".toList, version, [], [mpWeek1 content], 0⟩

/-- A learning plan of candidate 1 on codebase `"cb"` with a week-1
entry. -/
def planRow1 : LearningPlanRow :=
  ⟨1, 1, "cb".toList, [], [⟨1, "w1".toList⟩], 0⟩

/-- State before a master-plan refresh: one version-1 master plan, the
candidate's plan, and no weekly content yet. -/
def sBeforeRefresh : DbState :=
  ⟨[], [], [mpRowV 1 ("R1".toList)], [planRow1], [], []⟩

/-- The same state after a refresh wrote a version-2 row with different
week-1 reading content. -/
def sAfterRefresh : DbState :=
  ⟨[], [], [mpRowV 1 ("R1".toList), mpRowV 2 ("R2".toList)], [planRow1], [], []⟩

/-- A state where candidate 1's week 1 is already materialized with
non-empty reading and tasks (master-plan table left to be filled in). -/
def sMaterialized : DbState :=
  ⟨[], [], [], [planRow1],
   [⟨1, 1, some ⟨"T".toList, "R1".toList, none⟩,
     [⟨"t".toList, "d".toList, none⟩], [("q".toList)]⟩], []⟩

/-- An empty prompt-file directory (no expectation context available). -/
def pfNone : List Char → Option (List Char) := fun _ => none

/-- A weekly content row: reading with three `"## "` section markers
(two estimated chapters), four tasks, five quiz questions. -/
def sampleContent : WeeklyContentRow :=
  ⟨1, 1, some ⟨"Week".toList, "## A x## B y## C z".toList, none⟩,
   [⟨"t1".toList, [], none⟩, ⟨"t2".toList, [], none⟩,
    ⟨"t3".toList, [], none⟩, ⟨"t4".toList, [], none⟩],
   [("q1".toList), ("q2".toList), ("q3".toList), ("q4".toList), ("q5".toList)]⟩

/-- Matching progress: 1 chapter done, 2 tasks done, quiz score 3. -/
def sampleProgress : ProgressRow :=
  ⟨1, 1, .chapters [0], [("a".toList), ("b".toList)], some 3, none⟩

/-! ## Helper lemmas -/

/-- After an upsert, the row found for the key is the upserted row. -/
theorem findProgress_upsert (c w : Int) (row : ProgressRow) (rows : List ProgressRow)
    (hc : row.candidateId = c) (hw : row.weekNumber = w) :
    findProgress c w (upsertProgress c w row rows) = some row := by
  induction rows with
  | nil => simp [upsertProgress, findProgress, List.find?, hc, hw]
  | cons r rs ih =>
    by_cases h : (r.candidateId == c && r.weekNumber == w) = true
    · simp [upsertProgress, h, findProgress, List.find?, hc, hw]
    · simp only [upsertProgress, h, if_false]
      simp only [findProgress, List.find?] at ih ⊢
      rw [Bool.not_eq_true] at h
      rw [h]
      exact ih

/-- If any week's content generation fails, the sequential loop fails. -/
theorem genWeeks_error_of_mem (g : GrokOracles) (analysis : PyJson) (ws : List PlanWeek)
    (h : ∃ w ∈ ws, ∃ e, genWeekContent g analysis w = .error e) :
    ∃ e, genWeeks g analysis ws = .error e := by
  induction ws with
  | nil => simp at h
  | cons w rest ih =>
    obtain ⟨w0, hmem, e0, he0⟩ := h
    rcases List.mem_cons.mp hmem with rfl | hmem'
    · exact ⟨e0, by simp [genWeeks, he0]⟩
    · cases hw : genWeekContent g analysis w with
      | error e => exact ⟨e, by simp [genWeeks, hw]⟩
      | ok mw =>
        obtain ⟨e, he⟩ := ih ⟨w0, hmem', e0, he0⟩
        exact ⟨e, by simp [genWeeks, hw, he]⟩

/-- `math.ceil(s / 2)` on a natural is `(s + 1) / 2`. -/
theorem ceil_half (s : ℕ) : ⌈(s : ℚ) / 2⌉ = (((s + 1) / 2 : ℕ) : ℤ) := by
  rcases Nat.even_or_odd s with ⟨k, hk⟩ | ⟨k, hk⟩
  · subst hk
    have h2 : ((k + k : ℕ) : ℚ) / 2 = (k : ℚ) := by push_cast; ring
    rw [h2]
    have : (k + k + 1) / 2 = k := by omega
    rw [this, Int.ceil_natCast]
  · subst hk
    have h2 : ((2 * k + 1 : ℕ) : ℚ) / 2 = ((k : ℤ) : ℚ) + 1 / 2 := by push_cast; ring
    rw [h2]
    have h3 : ⌈((k : ℤ) : ℚ) + 1 / 2⌉ = k + ⌈(1 / 2 : ℚ)⌉ := by
      rw [add_comm, Int.ceil_add_int]
      ring
    have h4 : ⌈(1 / 2 : ℚ)⌉ = 1 := by norm_num [Int.ceil_eq_iff]
    rw [h3, h4]
    have : (2 * k + 1 + 1) / 2 = k + 1 := by omega
    omega

/-- The code's chapter estimate agrees with the spec's
ceiling-of-half formulation. -/
theorem estimated_eq_spec (t : List Char) :
    ((estimatedChapters t : ℕ) : ℚ) = ((specTotalChapters t : ℤ) : ℚ) := by
  simp only [estimatedChapters, specTotalChapters]
  set s := countOccur ("## ".toList) t with hs
  rcases Nat.eq_zero_or_pos s with h | h
  · simp [h]
  · rw [if_pos h, ceil_half s]
    have h1 : (1 : ℤ) ≤ (((s + 1) / 2 : ℕ) : ℤ) := by omega
    rw [max_eq_right h1]
    have h2 : max 1 ((s + 1) / 2) = (s + 1) / 2 := by omega
    rw [h2]
    norm_cast

/-- Reason enrichment never changes the reason-stripped reading. -/
theorem enrichReading_strip (g : GrokOracles) (e : Option (List Char))
    (r : Option Reading) (r' : Option Reading) (h : enrichReading g e r = .ok r') :
    stripReadingReason r' = stripReadingReason r := by
  cases r with
  | none => simp only [enrichReading] at h; cases h; rfl
  | some rd =>
    cases e with
    | none => simp only [enrichReading] at h; cases h; rfl
    | some ex =>
      simp only [enrichReading] at h
      by_cases hn : rd.reason.isNone
      · rw [if_pos hn] at h
        cases hg : g.genReason ex ("reading material".toList) rd.title (rd.content.take 200) with
        | ok rs => rw [hg] at h; cases h; rfl
        | error err => rw [hg] at h; cases h
      · rw [if_neg hn] at h; cases h; rfl

/-- Reason enrichment never changes the reason-stripped task list. -/
theorem enrichTasks_strip (g : GrokOracles) (e : Option (List Char))
    (ts ts' : List CodingTask) (h : enrichTasks g e ts = .ok ts') :
    stripTaskReasons ts' = stripTaskReasons ts := by
  induction ts generalizing ts' with
  | nil => simp only [enrichTasks] at h; cases h; rfl
  | cons t rest ih =>
    simp only [enrichTasks] at h
    cases e with
    | none =>
      simp only at h
      cases hr : enrichTasks g none rest with
      | error err => rw [hr] at h; cases h
      | ok rs' => rw [hr] at h; cases h; simp [stripTaskReasons] at ih ⊢; exact ih rs' hr
    | some ex =>
      simp only at h
      by_cases hn : t.reason.isNone
      · rw [if_pos hn] at h
        cases hg : g.genReason ex ("coding task".toList) t.title (t.description.take 200) with
        | error err => rw [hg] at h; cases h
        | ok rs =>
          rw [hg] at h
          simp only at h
          cases hr : enrichTasks g (some ex) rest with
          | error err => rw [hr] at h; cases h
          | ok rest' =>
            rw [hr] at h; cases h
            simp [stripTaskReasons] at ih ⊢
            exact ih rest' hr
      · rw [if_neg hn] at h
        cases hr : enrichTasks g (some ex) rest with
        | error err => rw [hr] at h; cases h
        | ok rest' =>
          rw [hr] at h; cases h
          simp [stripTaskReasons] at ih ⊢
          exact ih rest' hr

/-- The backfill stage never changes the reason-stripped content. -/
theorem backfillStage_strip (g : GrokOracles) (e : Option (List Char)) (pid w : Int)
    (row row' : WeeklyContentRow) (s s' : DbState)
    (h : backfillStage g e pid w row s = (.ok row', s')) :
    stripReadingReason row'.reading = stripReadingReason row.reading ∧
    stripTaskReasons row'.tasks = stripTaskReasons row.tasks ∧
    row'.quiz = row.quiz := by
  cases e with
  | none => simp only [backfillStage] at h; cases h; exact ⟨rfl, rfl, rfl⟩
  | some ex =>
    simp only [backfillStage] at h
    cases hr : enrichReading g (some ex) row.reading with
    | error err => rw [hr] at h; cases h
    | ok reading' =>
      rw [hr] at h
      cases ht : enrichTasks g (some ex) row.tasks with
      | error err => rw [ht] at h; cases h
      | ok tasks' =>
        rw [ht] at h
        simp only [Prod.mk.injEq] at h
        obtain ⟨h1, _⟩ := h
        cases h1
        exact ⟨enrichReading_strip g (some ex) _ _ hr, enrichTasks_strip g (some ex) _ _ ht, rfl⟩

/-- The content outcome of the backfill stage does not depend on the
database state it is given (the state only receives the commit). -/
theorem backfillStage_fst (g : GrokOracles) (e : Option (List Char)) (pid w : Int)
    (row : WeeklyContentRow) (s1 s2 : DbState) :
    (backfillStage g e pid w row s1).1 = (backfillStage g e pid w row s2).1 := by
  cases e with
  | none => rfl
  | some ex =>
    simp only [backfillStage]
    cases hr : enrichReading g (some ex) row.reading with
    | error err => rfl
    | ok reading' =>
      cases ht : enrichTasks g (some ex) row.tasks with
      | error err => rfl
      | ok tasks' => rfl

/-! ## Claim theorems -/

/-- C1 counterexample: regeneration does not bump the version.  From a
state with an analysis, the first `generate_master_plan` succeeds and
stores the single row `cb_v1` with version 1; running it again — as the
hourly refresh sweep does — fails on the duplicate primary key and leaves
the store unchanged, instead of writing a higher-version row. -/
theorem C1_counterexample :
    (generateMasterPlan gOk ("cb".toList) sAnalysisOnly 1).1 =
      .ok ⟨("cb".toList) ++ ("_v1".toList), "overview".toList,
        [⟨1, "w1".toList, some ⟨"T".toList, "C".toList, none⟩, [], []⟩]⟩ ∧
    ((generateMasterPlan gOk ("cb".toList) sAnalysisOnly 1).2.masterPlans.map
      MasterPlanRow.version) = [1] ∧
    (generateMasterPlan gOk ("cb".toList)
      ((generateMasterPlan gOk ("cb".toList) sAnalysisOnly 1).2) 2).1 = .error .integrityError ∧
    (generateMasterPlan gOk ("cb".toList)
      ((generateMasterPlan gOk ("cb".toList) sAnalysisOnly 1).2) 2).2 =
      (generateMasterPlan gOk ("cb".toList) sAnalysisOnly 1).2 := by
  decide

/-- C1 (amended): every successful `generate_master_plan` call appends one
row with fixed id `"{codebase_id}_v1"` and version 1 (never a bumped
version), and when the codebase had no master-plan rows before the call,
`get_master_plan` afterwards returns exactly the inserted row. -/
theorem C1_theorem (g : GrokOracles) (cb : List Char) (s : DbState) (now : Nat)
    (mp : MasterPlanDict) (s' : DbState)
    (h : generateMasterPlan g cb s now = (.ok mp, s'))
    (hnone : ∀ r ∈ s.masterPlans, r.codebaseId ≠ cb) :
    ∃ row : MasterPlanRow,
      s'.masterPlans = s.masterPlans ++ [row] ∧ row.version = 1 ∧
      row.id = cb ++ ("_v1".toList) ∧ row.codebaseId = cb ∧
      getMasterPlan cb s' = some row := by
  simp only [generateMasterPlan] at h
  cases ha : latestAnalysisFor cb s.analyses with
  | none => simp only [ha] at h; rw [Prod.mk.injEq] at h; exact absurd h.1 (by simp)
  | some a =>
    cases hsk : g.genPlanSkeleton a.analysisData with
    | error e =>
      simp only [ha, hsk] at h; rw [Prod.mk.injEq] at h; exact absurd h.1 (by simp)
    | ok plan =>
      cases hwk : genWeeks g a.analysisData plan.weeks with
      | error e =>
        simp only [ha, hsk, hwk] at h; rw [Prod.mk.injEq] at h; exact absurd h.1 (by simp)
      | ok weeks =>
        cases hdup : s.masterPlans.any (fun r => r.id == cb ++ ("_v1".toList)) with
        | true =>
          simp only [ha, hsk, hwk, hdup, if_true] at h
          rw [Prod.mk.injEq] at h; exact absurd h.1 (by simp)
        | false =>
          simp only [ha, hsk, hwk, hdup, Bool.false_eq_true, if_false, Prod.mk.injEq] at h
          obtain ⟨h1, h2⟩ := h
          subst h2
          refine ⟨⟨cb ++ ("_v1".toList), cb, 1, plan.overview, weeks, now⟩, rfl, rfl, rfl, rfl, ?_⟩
          simp only [getMasterPlan, latestMasterPlan, List.filter_append]
          rw [List.filter_eq_nil_iff.mpr (by intro r hr; simpa using hnone r hr)]
          simp

/-- C1 witness: the amended theorem at the concrete one-analysis state. -/
theorem C1_witness :
    ∃ row : MasterPlanRow,
      ((generateMasterPlan gOk ("cb".toList) sAnalysisOnly 1).2).masterPlans =
        sAnalysisOnly.masterPlans ++ [row] ∧ row.version = 1 ∧
      row.id = ("cb".toList) ++ ("_v1".toList) ∧ row.codebaseId = ("cb".toList) ∧
      getMasterPlan ("cb".toList) ((generateMasterPlan gOk ("cb".toList) sAnalysisOnly 1).2) =
        some row :=
  C1_theorem gOk ("cb".toList) sAnalysisOnly 1
    ⟨("cb".toList) ++ ("_v1".toList), "overview".toList,
      [⟨1, "w1".toList, some ⟨"T".toList, "C".toList, none⟩, [], []⟩]⟩
    ((generateMasterPlan gOk ("cb".toList) sAnalysisOnly 1).2)
    (by decide) (by simp [sAnalysisOnly, DbState.empty])

/-- C2 counterexample: the master plan backing a candidate's weekly
content is not pinned at plan-creation time.  With the candidate's plan
present and no materialized weekly content, the same request returns the
version-1 master plan's week-1 reading before a refresh and the
version-2 content after a refresh inserted a higher-version row. -/
theorem C2_counterexample :
    (getWeeklyContent gOk pfNone 1 1 sBeforeRefresh).1 =
      .ok ⟨1, 1, some ⟨"T".toList, "R1".toList, none⟩,
        [⟨"t".toList, "d".toList, none⟩], [("q".toList)]⟩ ∧
    (getWeeklyContent gOk pfNone 1 1 sAfterRefresh).1 =
      .ok ⟨1, 1, some ⟨"T".toList, "R2".toList, none⟩,
        [⟨"t".toList, "d".toList, none⟩], [("q".toList)]⟩ ∧
    ("R1".toList : List Char) ≠ ("R2".toList) := by
  decide

/-- C2 (amended): pinning holds only after materialization.  Once the
candidate's `WeeklyContent` row for the week exists with non-empty
reading and tasks, the content returned by `get_weekly_content` is
independent of the master-plan table, so a refresh cannot change it;
before materialization the handler reads the highest-version master plan
at request time (see the counterexample). -/
theorem C2_theorem (g : GrokOracles) (pf : List Char → Option (List Char))
    (cand week : Int) (s : DbState) (m1 m2 : List MasterPlanRow)
    (plan : LearningPlanRow) (wc : WeeklyContentRow)
    (hp : latestLearningPlan cand s.learningPlans = some plan)
    (hwc : findWeeklyContent plan.id week s.weeklyContents = some wc)
    (hr : wc.reading.isSome) (ht : wc.tasks ≠ []) :
    (getWeeklyContent g pf cand week { s with masterPlans := m1 }).1 =
      (getWeeklyContent g pf cand week { s with masterPlans := m2 }).1 := by
  have hnm : needsMaterialization (some wc) = false := by
    simp only [needsMaterialization, Bool.or_eq_false_iff]
    constructor
    · exact (Option.isNone_eq_false_iff _).mpr hr
    · exact List.isEmpty_eq_false.mpr ht
  simp only [getWeeklyContent]
  simp only [show ({ s with masterPlans := m1 } : DbState).learningPlans = s.learningPlans from rfl,
    show ({ s with masterPlans := m2 } : DbState).learningPlans = s.learningPlans from rfl,
    show ({ s with masterPlans := m1 } : DbState).weeklyContents = s.weeklyContents from rfl,
    show ({ s with masterPlans := m2 } : DbState).weeklyContents = s.weeklyContents from rfl,
    show expectationContextFor pf cand { s with masterPlans := m1 } =
      expectationContextFor pf cand s from rfl,
    show expectationContextFor pf cand { s with masterPlans := m2 } =
      expectationContextFor pf cand s from rfl,
    hp, hwc, hnm, Bool.false_eq_true, if_false]
  cases hb1 : backfillStage g (expectationContextFor pf cand s) plan.id week wc
      { s with masterPlans := m1 } with
  | mk res1 s1' =>
    cases hb2 : backfillStage g (expectationContextFor pf cand s) plan.id week wc
        { s with masterPlans := m2 } with
    | mk res2 s2' =>
      have hfst := backfillStage_fst g (expectationContextFor pf cand s) plan.id week wc
        { s with masterPlans := m1 } { s with masterPlans := m2 }
      rw [hb1, hb2] at hfst
      simp only at hfst
      subst hfst
      cases res1 <;> rfl

/-- C2 witness: the amended theorem at a state with a materialized week,
comparing the pre-refresh and post-refresh master-plan tables. -/
theorem C2_witness :
    (getWeeklyContent gOk pfNone 1 1
      { sMaterialized with masterPlans := [mpRowV 1 ("R1".toList)] }).1 =
    (getWeeklyContent gOk pfNone 1 1
      { sMaterialized with masterPlans := [mpRowV 1 ("R1".toList), mpRowV 2 ("R2".toList)] }).1 :=
  C2_theorem gOk pfNone 1 1 sMaterialized
    [mpRowV 1 ("R1".toList)] [mpRowV 1 ("R1".toList), mpRowV 2 ("R2".toList)]
    planRow1 ⟨1, 1, some ⟨"T".toList, "R1".toList, none⟩,
      [⟨"t".toList, "d".toList, none⟩], [("q".toList)]⟩
    (by decide) (by decide) (by decide) (by decide)

/-- C3: the code violates reading-set monotonicity.  A
`mark_chapter_complete` call on an absent row persists
`reading_completed = [1]` (the pending insert serializes the append); a
subsequent `update_progress` carrying the boolean `reading_completed`
flag overwrites the array with the legacy integer `1`, so the set of
completed chapters drops from one element to none (as read back by the
progress checkers). -/
theorem C3_theorem :
    (findProgress 1 1 ((markChapterComplete 1 1 1 DbState.empty).1).progresses).map
      ProgressRow.readingCompleted = some (.chapters [1]) ∧
    (findProgress 1 1 (updateProgress 1 ⟨1, some true, none, none⟩
        (markChapterComplete 1 1 1 DbState.empty).1).progresses).map
      ProgressRow.readingCompleted = some (.legacy 1) ∧
    completedChaptersOf (.legacy 1) = 0 ∧ completedChaptersOf (.chapters [1]) = 1 := by
  decide

/-- Copy-from-master half of C4 (helper): with a materialization-triggering
request, an available master plan with a non-empty `weeks_data` containing
the week, the handler never invokes on-demand generation and any
successful response carries the master-plan week's reading/tasks/quiz
(up to reason backfill). -/
theorem getWeeklyContent_copiesFromMaster (g : GrokOracles)
    (pf : List Char → Option (List Char))
    (cand week : Int) (s : DbState) (plan : LearningPlanRow) (mp : MasterPlanRow) (wk : MPWeek)
    (hp : latestLearningPlan cand s.learningPlans = some plan)
    (hn : needsMaterialization (findWeeklyContent plan.id week s.weeklyContents) = true)
    (hm : latestMasterPlan plan.codebaseId s.masterPlans = some mp)
    (hne : mp.weeksData.isEmpty = false)
    (hwk : mp.weeksData.find? (fun w => w.weekNumber == week) = some wk) :
    (getWeeklyContent g pf cand week s).2.2 = false ∧
    (∀ row s' b, getWeeklyContent g pf cand week s = (.ok row, s', b) →
      stripReadingReason row.reading = stripReadingReason wk.reading ∧
      stripTaskReasons row.tasks = stripTaskReasons wk.tasks ∧
      row.quiz = wk.quiz) := by
  simp only [getWeeklyContent, hp, hn, if_true, materializeStage, hm, hne, Bool.false_eq_true,
    if_false, hwk]
  set e := expectationContextFor pf cand s with he
  cases hr : enrichReading g e wk.reading with
  | error err => exact ⟨rfl, by intro row s' b hrow; cases hrow⟩
  | ok reading' =>
    cases ht : enrichTasks g e wk.tasks with
    | error err => exact ⟨rfl, by intro row s' b hrow; cases hrow⟩
    | ok tasks' =>
      simp only
      cases hb : backfillStage g e plan.id week ⟨plan.id, week, reading', tasks', wk.quiz⟩
          { s with weeklyContents := upsertWeeklyContent plan.id week ⟨plan.id, week, reading', tasks', wk.quiz⟩ s.weeklyContents } with
      | mk res s2 =>
        cases res with
        | error err => exact ⟨rfl, by intro row s' b hrow; cases hrow⟩
        | ok row' =>
          refine ⟨rfl, ?_⟩
          intro row s' b hrow
          simp only [Prod.mk.injEq] at hrow
          obtain ⟨h1, _, _⟩ := hrow
          cases h1
          obtain ⟨b1, b2, b3⟩ := backfillStage_strip g e plan.id week _ _ _ _ hb
          refine ⟨?_, ?_, ?_⟩
          · rw [b1]; exact enrichReading_strip g e _ _ hr
          · rw [b2]; exact enrichTasks_strip g e _ _ ht
          · exact b3

/-- On-demand half of C4 (helper): whenever the on-demand generation path
was invoked, the candidate's plan had no available master plan (no row,
or an empty `weeks_data`). -/
theorem getWeeklyContent_onDemandOnlyWithoutMaster (g : GrokOracles)
    (pf : List Char → Option (List Char)) (cand week : Int) (s : DbState)
    (hflag : (getWeeklyContent g pf cand week s).2.2 = true) :
    ∃ plan, latestLearningPlan cand s.learningPlans = some plan ∧
      (latestMasterPlan plan.codebaseId s.masterPlans = none ∨
       ∃ mp, latestMasterPlan plan.codebaseId s.masterPlans = some mp ∧ mp.weeksData = []) := by
  cases hp : latestLearningPlan cand s.learningPlans with
  | none => rw [getWeeklyContent, hp] at hflag; cases hflag
  | some plan =>
    refine ⟨plan, rfl, ?_⟩
    rw [getWeeklyContent, hp] at hflag
    simp only at hflag
    set e := expectationContextFor pf cand s with he
    by_cases hn : needsMaterialization (findWeeklyContent plan.id week s.weeklyContents) = true
    · rw [if_pos hn] at hflag
      cases hm : latestMasterPlan plan.codebaseId s.masterPlans with
      | none => exact Or.inl rfl
      | some mp =>
        by_cases hne : mp.weeksData.isEmpty = true
        · exact Or.inr ⟨mp, rfl, List.isEmpty_iff.mp hne⟩
        · exfalso
          rw [Bool.not_eq_true] at hne
          simp only [materializeStage, hm, hne, Bool.false_eq_true, if_false] at hflag
          cases hwk : mp.weeksData.find? (fun w => w.weekNumber == week) with
          | none => simp only [hwk] at hflag; simp at hflag
          | some wk =>
            simp only [hwk] at hflag
            cases hr : enrichReading g e wk.reading with
            | error err => simp only [hr] at hflag; simp at hflag
            | ok reading' =>
              simp only [hr] at hflag
              cases ht : enrichTasks g e wk.tasks with
              | error err => simp only [ht] at hflag; simp at hflag
              | ok tasks' =>
                simp only [ht] at hflag
                cases hb : backfillStage g e plan.id week ⟨plan.id, week, reading', tasks', wk.quiz⟩
                    { s with weeklyContents := upsertWeeklyContent plan.id week ⟨plan.id, week, reading', tasks', wk.quiz⟩ s.weeklyContents } with
                | mk res s2 =>
                  rw [hb] at hflag
                  cases res <;> simp at hflag
    · rw [if_neg hn] at hflag
      exfalso
      cases hwc : findWeeklyContent plan.id week s.weeklyContents with
      | none => simp only [hwc] at hflag; simp at hflag
      | some wc =>
        simp only [hwc] at hflag
        cases hb : backfillStage g e plan.id week wc s with
        | mk res s2 =>
          rw [hb] at hflag
          cases res <;> simp at hflag

/-- C4: when a weekly-content request needs materialization and the latest
master plan for the plan's codebase is available and contains the week,
the content is copied from the master plan and the on-demand generation
path is never invoked; conversely, the on-demand path runs only when no
master plan is available (no row, or empty weeks). -/
theorem C4_theorem :
    (∀ (g : GrokOracles) (pf : List Char → Option (List Char)) (cand week : Int)
       (s : DbState) (plan : LearningPlanRow) (mp : MasterPlanRow) (wk : MPWeek),
      latestLearningPlan cand s.learningPlans = some plan →
      needsMaterialization (findWeeklyContent plan.id week s.weeklyContents) = true →
      latestMasterPlan plan.codebaseId s.masterPlans = some mp →
      mp.weeksData.isEmpty = false →
      mp.weeksData.find? (fun w => w.weekNumber == week) = some wk →
      (getWeeklyContent g pf cand week s).2.2 = false ∧
      (∀ row s' b, getWeeklyContent g pf cand week s = (.ok row, s', b) →
        stripReadingReason row.reading = stripReadingReason wk.reading ∧
        stripTaskReasons row.tasks = stripTaskReasons wk.tasks ∧
        row.quiz = wk.quiz)) ∧
    (∀ (g : GrokOracles) (pf : List Char → Option (List Char)) (cand week : Int) (s : DbState),
      (getWeeklyContent g pf cand week s).2.2 = true →
      ∃ plan, latestLearningPlan cand s.learningPlans = some plan ∧
        (latestMasterPlan plan.codebaseId s.masterPlans = none ∨
         ∃ mp, latestMasterPlan plan.codebaseId s.masterPlans = some mp ∧ mp.weeksData = [])) :=
  ⟨fun g pf cand week s plan mp wk hp hn hm hne hwk =>
      getWeeklyContent_copiesFromMaster g pf cand week s plan mp wk hp hn hm hne hwk,
   fun g pf cand week s hflag =>
      getWeeklyContent_onDemandOnlyWithoutMaster g pf cand week s hflag⟩

/-- C4 witness: the copy branch at the concrete pre-refresh state — the
on-demand flag is false and the returned content is the master plan's
week 1 (which here needed no reason backfill). -/
theorem C4_witness :
    (getWeeklyContent gOk pfNone 1 1 sBeforeRefresh).2.2 = false ∧
    (stripReadingReason (⟨1, 1, some ⟨"T".toList, "R1".toList, none⟩,
        [⟨"t".toList, "d".toList, none⟩], [("q".toList)]⟩ : WeeklyContentRow).reading =
      stripReadingReason (mpWeek1 ("R1".toList)).reading ∧
     stripTaskReasons (⟨1, 1, some ⟨"T".toList, "R1".toList, none⟩,
        [⟨"t".toList, "d".toList, none⟩], [("q".toList)]⟩ : WeeklyContentRow).tasks =
      stripTaskReasons (mpWeek1 ("R1".toList)).tasks ∧
     (⟨1, 1, some ⟨"T".toList, "R1".toList, none⟩,
        [⟨"t".toList, "d".toList, none⟩], [("q".toList)]⟩ : WeeklyContentRow).quiz =
      (mpWeek1 ("R1".toList)).quiz) :=
  ⟨(C4_theorem.1 gOk pfNone 1 1 sBeforeRefresh planRow1 (mpRowV 1 ("R1".toList))
      (mpWeek1 ("R1".toList)) (by decide) (by decide) (by decide) (by decide) (by decide)).1,
   (C4_theorem.1 gOk pfNone 1 1 sBeforeRefresh planRow1 (mpRowV 1 ("R1".toList))
      (mpWeek1 ("R1".toList)) (by decide) (by decide) (by decide) (by decide) (by decide)).2
     _ ((getWeeklyContent gOk pfNone 1 1 sBeforeRefresh).2.1) false (by decide)⟩

/-- C5 counterexample: the fallback does not extract the first balanced
brace-delimited object.  On `x {"a":{"b":{"c":1}}}` (depth-3 nesting, no
fences) the first balanced object is the whole outer object, which parses
to a three-level value, but `_parse_json_response` returns the inner
`{"b":{"c":1}}` matched by its depth-limited regex — a different value. -/
theorem C5_counterexample :
    parseJsonResponse ("x \x7b\"a\":\x7b\"b\":\x7b\"c\":1\x7d\x7d\x7d".toList) =
      .ok (PyJson.objCons ("b".toList)
        (PyJson.objCons ("c".toList) (PyJson.pint 1) PyJson.objNil) PyJson.objNil) ∧
    firstBalancedObject ("x \x7b\"a\":\x7b\"b\":\x7b\"c\":1\x7d\x7d\x7d".toList) =
      some ("\x7b\"a\":\x7b\"b\":\x7b\"c\":1\x7d\x7d\x7d".toList) ∧
    pyJsonLoads ("\x7b\"a\":\x7b\"b\":\x7b\"c\":1\x7d\x7d\x7d".toList) =
      some (PyJson.objCons ("a".toList)
        (PyJson.objCons ("b".toList)
          (PyJson.objCons ("c".toList) (PyJson.pint 1) PyJson.objNil) PyJson.objNil)
        PyJson.objNil) ∧
    PyJson.objCons ("a".toList)
        (PyJson.objCons ("b".toList)
          (PyJson.objCons ("c".toList) (PyJson.pint 1) PyJson.objNil) PyJson.objNil)
        PyJson.objNil ≠
      PyJson.objCons ("b".toList)
        (PyJson.objCons ("c".toList) (PyJson.pint 1) PyJson.objNil) PyJson.objNil := by
  refine ⟨by decide, by decide, by decide, by decide⟩

/-- C5 (amended): `_parse_json_response` succeeds on pure JSON (first
conjunct, universally), on a ```json-labelled fence, on an unlabelled
fence, and via the brace-regex fallback on flat objects; but the fallback
regex only handles one nesting level, so on deeper nesting it extracts an
inner object rather than the first balanced one; a selected fence that
does not parse raises a plain `JSONDecodeError` even when another
substring would parse; and the `ValueError` carrying the first 200
characters of the raw output is raised only when neither a fence nor a
regex match exists. -/
theorem C5_theorem :
    (∀ (cs : List Char) (v : PyJson), pyJsonLoads cs = some v →
      parseJsonResponse cs = .ok v) ∧
    parseJsonResponse ("Here: ```json\n\x7b\"a\":1\x7d\n```".toList) =
      .ok (PyJson.objCons ("a".toList) (PyJson.pint 1) PyJson.objNil) ∧
    parseJsonResponse ("Here: ```\n\x7b\"a\":1\x7d\n```".toList) =
      .ok (PyJson.objCons ("a".toList) (PyJson.pint 1) PyJson.objNil) ∧
    parseJsonResponse ("noise \x7b\"a\":1\x7d tail".toList) =
      .ok (PyJson.objCons ("a".toList) (PyJson.pint 1) PyJson.objNil) ∧
    parseJsonResponse ("x \x7b\"a\":\x7b\"b\":\x7b\"c\":1\x7d\x7d\x7d".toList) =
      .ok (PyJson.objCons ("b".toList)
        (PyJson.objCons ("c".toList) (PyJson.pint 1) PyJson.objNil) PyJson.objNil) ∧
    parseJsonResponse ("``` x ``` \x7b\"a\":1\x7d".toList) = .error .jsonDecodeError ∧
    parseJsonResponse (List.replicate 250 'z') =
      .error (.valueError (("Could not parse JSON from response: ".toList) ++
        List.replicate 200 'z')) := by
  refine ⟨?_, by decide, by decide, by decide, by decide, by decide, ?_⟩
  · intro cs v h
    simp only [parseJsonResponse, h]
  · set_option maxRecDepth 10000 in decide

/-- C5 witness: the universal direct-parse conjunct at the spec's pure
JSON example. -/
theorem C5_witness :
    parseJsonResponse ("\x7b\"a\":1\x7d".toList) =
      .ok (PyJson.objCons ("a".toList) (PyJson.pint 1) PyJson.objNil) :=
  C5_theorem.1 ("\x7b\"a\":1\x7d".toList)
    (PyJson.objCons ("a".toList) (PyJson.pint 1) PyJson.objNil) (by decide)

/-- C6 counterexample: with no stored analysis the endpoint responds with
status 500 — not a 4xx-equivalent — wrapping the missing-precursor
message. -/
theorem C6_counterexample :
    (generateMasterPlanEndpoint gOk ("cb".toList) DbState.empty 0).1 =
      .error ⟨500, ("Master plan generation failed: No codebase analysis found for cb".toList)⟩ ∧
    ¬ statusIs4xx 500 := by
  constructor
  · decide
  · simp only [statusIs4xx]; decide

/-- C6 (amended): master-plan generation for a codebase with no stored
analysis fails with the missing-precursor `ValueError`, persists nothing,
and is surfaced by the endpoint as HTTP 500 (the code wraps every failure
in a 500, not a 4xx); when an analysis exists the precondition is met and
the missing-precursor error can no longer arise. -/
theorem C6_theorem (g : GrokOracles) (cb : List Char) (s : DbState) (now : Nat) :
    (latestAnalysisFor cb s.analyses = none →
      generateMasterPlanEndpoint g cb s now =
        (.error ⟨500, ("Master plan generation failed: No codebase analysis found for ".toList)
          ++ cb⟩, s)) ∧
    (∀ a, latestAnalysisFor cb s.analyses = some a →
      ∀ msg, (generateMasterPlan g cb s now).1 ≠ .error (.precursorMissing msg)) := by
  constructor
  · intro ha
    simp only [generateMasterPlanEndpoint, generateMasterPlan, ha, GenError.message]
    simp [List.append_assoc]
  · intro a ha msg
    simp only [generateMasterPlan, ha]
    cases hsk : g.genPlanSkeleton a.analysisData with
    | error e => simp [hsk]
    | ok plan =>
      cases hwk : genWeeks g a.analysisData plan.weeks with
      | error e => simp [hsk, hwk]
      | ok weeks =>
        simp only [hsk, hwk]
        split <;> simp

/-- C6 witness: the missing-analysis branch at the empty state. -/
theorem C6_witness :
    generateMasterPlanEndpoint gOk ("cb".toList) DbState.empty 0 =
      (.error ⟨500, ("Master plan generation failed: No codebase analysis found for ".toList)
        ++ ("cb".toList)⟩, DbState.empty) :=
  (C6_theorem gOk ("cb".toList) DbState.empty 0).1 (by decide)

/-- C7: if generating any week's reading, tasks or quiz fails during
master-plan generation, the whole generation aborts with an error, no
master-plan row is persisted (the state is unchanged), and the previously
stored latest master plan is untouched. -/
theorem C7_theorem (g : GrokOracles) (cb : List Char) (s : DbState) (now : Nat)
    (a : AnalysisRow) (plan : PlanSkeleton)
    (ha : latestAnalysisFor cb s.analyses = some a)
    (hplan : g.genPlanSkeleton a.analysisData = .ok plan)
    (hfail : ∃ w ∈ plan.weeks, ∃ e, genWeekContent g a.analysisData w = .error e) :
    (∃ e, (generateMasterPlan g cb s now).1 = .error (.upstream e)) ∧
    (generateMasterPlan g cb s now).2 = s ∧
    getMasterPlan cb (generateMasterPlan g cb s now).2 = getMasterPlan cb s := by
  obtain ⟨e, he⟩ := genWeeks_error_of_mem g a.analysisData plan.weeks hfail
  simp only [generateMasterPlan, ha, hplan, he]
  exact ⟨⟨e, rfl⟩, trivial, trivial⟩

/-- C7 witness: oracles whose task generation fails, at the one-analysis
state — generation errors and the state is unchanged. -/
theorem C7_witness :
    (∃ e, (generateMasterPlan gTasksFail ("cb".toList) sAnalysisOnly 1).1 =
      .error (.upstream e)) ∧
    (generateMasterPlan gTasksFail ("cb".toList) sAnalysisOnly 1).2 = sAnalysisOnly ∧
    getMasterPlan ("cb".toList) ((generateMasterPlan gTasksFail ("cb".toList) sAnalysisOnly 1).2) =
      getMasterPlan ("cb".toList) sAnalysisOnly :=
  C7_theorem gTasksFail ("cb".toList) sAnalysisOnly 1 ⟨"cb".toList, PyJson.objNil, 0⟩
    ⟨"overview".toList, [⟨1, "w1".toList⟩]⟩ (by decide) (by decide)
    ⟨⟨1, "w1".toList⟩, by decide, "boom".toList, by decide⟩

/-- C8: for every materialized week the percentage equals
`min(1, chapters/total)·30 + min(1, tasks/total)·40 + min(1, quiz/total)·30`
with `total_chapters` the ceiling-of-half of the `"## "` section count
(minimum 1); and 1 of 2 chapters, 2 of 4 tasks, quiz 3 of 5 yields 53.
(The zero-total guards of the code coincide with the formula because a
rational division by zero is zero.) -/
theorem C8_theorem :
    (∀ (content : WeeklyContentRow) (p : ProgressRow),
      weekPercent content p =
        min 1 ((completedChaptersOf p.readingCompleted : ℚ) /
            ((specTotalChapters (readingTextOf content) : ℤ) : ℚ)) * 30 +
        min 1 ((p.tasksCompleted.length : ℚ) / (content.tasks.length : ℚ)) * 40 +
        min 1 (((p.quizScore.getD 0 : Int) : ℚ) / (content.quiz.length : ℚ)) * 30) ∧
    weekPercent sampleContent sampleProgress = 53 := by
  constructor
  · intro content p
    simp only [weekPercent]
    rw [← estimated_eq_spec]
    congr 1
    · congr 1
      rcases Nat.eq_zero_or_pos content.tasks.length with h | h
      · simp [h]
      · rw [if_pos h]
    · rcases Nat.eq_zero_or_pos content.quiz.length with h | h
      · simp [h]
      · rw [if_pos h]
  · have hch : completedChaptersOf sampleProgress.readingCompleted = 1 := by decide
    have hest : estimatedChapters (readingTextOf sampleContent) = 2 := by decide
    have htl : sampleContent.tasks.length = 4 := by decide
    have hql : sampleContent.quiz.length = 5 := by decide
    have htc : sampleProgress.tasksCompleted.length = 2 := by decide
    have hqs : sampleProgress.quizScore.getD 0 = 3 := by decide
    simp only [weekPercent, hch, hest, htl, hql, htc, hqs]
    norm_num [min_def]

/-- C9: the code violates the idempotent persisted append.  The first
call does create the row (persisting chapter 3 with the INSERT), but on a
row already holding a chapter list the in-place JSON append is untracked
and dropped at commit: marking chapter 5 twice leaves the stored set
without chapter 5 (count 0, not exactly once), even though each call's
`completed_chapters` response reports the in-memory `[3, 5]`. -/
theorem C9_theorem :
    (findProgress 1 1 ((markChapterComplete 1 1 3 DbState.empty).1).progresses).map
      ProgressRow.readingCompleted = some (.chapters [3]) ∧
    (markChapterComplete 1 1 5 (markChapterComplete 1 1 3 DbState.empty).1).2 = [3, 5] ∧
    (markChapterComplete 1 1 5 (markChapterComplete 1 1 5
        (markChapterComplete 1 1 3 DbState.empty).1).1).2 = [3, 5] ∧
    (findProgress 1 1 ((markChapterComplete 1 1 5 (markChapterComplete 1 1 5
        (markChapterComplete 1 1 3 DbState.empty).1).1).1).progresses).map
      ProgressRow.readingCompleted = some (.chapters [3]) ∧
    chapterCount (.chapters [3]) 5 = 0 := by
  decide

/-- C10: the path-traversal guard of `FileService` is only a lexical
prefix test, so it rejects absolute paths but accepts `..` components:
for `codebase_id = "cb"` and `path = "../.."` the `relative_to` check
passes (no `ValueError`) although the accessed target resolves outside
the repository root `storage/codebases/cb` — contradicting the claim that
any path whose target lies outside the root raises `ValueError`. -/
theorem C10_theorem :
    fileServicePathCheck ("cb".toList) ⟨false, [("..".toList), ("..".toList)]⟩ =
      .ok (pathJoin (repoPathFor ("cb".toList)) ⟨false, [("..".toList), ("..".toList)]⟩) ∧
    ¬ insideRoot (pathJoin (repoPathFor ("cb".toList)) ⟨false, [("..".toList), ("..".toList)]⟩)
        (repoPathFor ("cb".toList)) ∧
    fileServicePathCheck ("cb".toList) ⟨true, [("etc".toList)]⟩ =
      .error ("Invalid path".toList) := by
  refine ⟨by decide, ?_, by decide⟩
  simp only [insideRoot]
  decide
